import Mathlib

/-!
Verification of the PumpTradingBot signal-to-position state machine.

This file embeds the stateful core of `paper_trade.py`, `main.py` and the
order-submission guard of `binance_client.py` as executable Lean functions
over exact rationals (Python floats are modelled by ℚ; float rounding error
is out of scope), and proves properties of the averaging / take-profit /
liquidation state machine.

Conventions of the embedding:
 - symbols are opaque identifiers, modelled as ℕ;
 - a Python dict keyed by symbol is an insertion-ordered association list
   (Python dicts preserve insertion order, which the monitoring loop relies on);
 - `print`-logging is modelled by a list of structured log events carrying the
   same payloads as the formatted strings in the source;
 - external market data and exchange responses consumed during one tick are a
   record of functions (one snapshot per tick);
 - Python `round(x, n)` is round-half-to-even on the scaled value.
-/

namespace PumpBot

/-- Python `round` on an exact rational: round-half-to-even (banker's rounding). -/
def pyRound (x : ℚ) : ℤ :=
  let f : ℤ := ⌊x⌋
  let frac : ℚ := x - f
  if frac < 1/2 then f
  else if 1/2 < frac then f + 1
  else if f % 2 = 0 then f else f + 1

/-- Python `round(x, n)` for n ≥ 0 decimal places. -/
def roundTo (x : ℚ) (n : ℕ) : ℚ :=
  (pyRound (x * 10 ^ n) : ℚ) / 10 ^ n

/-- Evaluation helper: pyRound of a value strictly below the half-way point. -/
theorem pyRound_low (x : ℚ) (z : ℤ) (h1 : (z : ℚ) ≤ x) (h2 : x < z + 1/2) :
    pyRound x = z := by
  have hf : ⌊x⌋ = z := by
    rw [Int.floor_eq_iff]
    exact ⟨h1, by linarith⟩
  simp only [pyRound, hf]
  rw [if_pos]
  linarith

/-- Evaluation helper: pyRound of a value strictly above the half-way point. -/
theorem pyRound_high (x : ℚ) (z : ℤ) (h1 : (z : ℚ) + 1/2 < x) (h2 : x < z + 1) :
    pyRound x = z + 1 := by
  have hf : ⌊x⌋ = z := by
    rw [Int.floor_eq_iff]
    constructor
    · linarith
    · linarith
  simp only [pyRound, hf]
  rw [if_neg (by linarith), if_pos (by linarith)]

/-- Evaluation helper: roundTo via a computed pyRound value. -/
theorem roundTo_eq (x : ℚ) (n : ℕ) (z : ℤ) (h : pyRound (x * 10 ^ n) = z) :
    roundTo x n = z / 10 ^ n := by
  rw [roundTo, h]

/-- Configuration constants of `paper_trade.py` (lines 17–34) / `config.py` as
consumed by `main.py`. Timeframes are opaque identifiers (ℕ). -/
structure Config where
  leverage : ℚ
  position_size : ℚ
  max_open_trades : ℕ
  use_averaging : Bool
  avg_levels : ℕ
  avg_drop_percent : ℚ
  avg_multiplier : ℚ
  tp_percent : ℚ
  pump_percent : ℚ
  timeframes : List ℕ
  min_oi_growth : ℚ

/-- The literal constant values of `paper_trade.py` lines 18–34. -/
def defaultConfig : Config :=
  { leverage := 10
    position_size := 1/20
    max_open_trades := 3
    use_averaging := true
    avg_levels := 2
    avg_drop_percent := 5
    avg_multiplier := 1
    tp_percent := 3
    pump_percent := 8
    timeframes := [1, 3, 5, 15]
    min_oi_growth := 1/20 }

/-- `paper_trade.py` line 18: INITIAL_BALANCE = 10.0. -/
def INITIAL_BALANCE : ℚ := 10

abbrev Symbol := ℕ

/-- One per-symbol position of the paper account, `paper_trade.py` line 40:
symbol -> {entry_price, total_qty, level, avg_price}. -/
structure Position where
  entry_price : ℚ
  avg_price : ℚ
  total_qty : ℚ
  level : ℕ
  deriving DecidableEq

/-- Structured counterpart of the strings appended to `PaperAccount.log`. -/
inductive LogEvent
  | entry (symbol : Symbol) (qty price : ℚ)
  | avg (symbol : Symbol) (level : ℕ) (newQty price newAvg : ℚ)
  | tpClose (symbol : Symbol) (price pnl newBalance : ℚ)
  | liquidation (symbol : Symbol) (price pnl newBalance : ℚ)
  deriving DecidableEq

/-- The position map: a Python dict as an insertion-ordered association list. -/
abbrev PosMap := List (Symbol × Position)

/-- Lookup, Python `dict.get(symbol)`: the binding of the key, if any. -/
def lookupPos (ps : PosMap) (s : Symbol) : Option Position :=
  match ps.find? (fun e => e.1 == s) with
  | some e => some e.2
  | none => none

/-- In-place mutation of the value bound to a key (Python mutates the dict value). -/
def updatePos (ps : PosMap) (s : Symbol) (p : Position) : PosMap :=
  ps.map (fun e => if e.1 == s then (e.1, p) else e)

/-- Deletion, Python `del positions[symbol]`. -/
def erasePos (ps : PosMap) (s : Symbol) : PosMap :=
  ps.filter (fun e => e.1 != s)

/-- Assignment, Python `positions[symbol] = v`: update in place if present,
else append. -/
def insertPos (ps : PosMap) (s : Symbol) (p : Position) : PosMap :=
  if (ps.find? (fun e => e.1 == s)).isSome then updatePos ps s p
  else ps ++ [(s, p)]

/-- The virtual ledger, `PaperAccount` of `paper_trade.py` lines 37–41. -/
structure PaperAccount where
  balance : ℚ
  positions : PosMap
  log : List LogEvent
  deriving DecidableEq

/-- The fresh account built by `PaperAccount.__init__`. -/
def initialAccount : PaperAccount :=
  { balance := INITIAL_BALANCE, positions := [], log := [] }

/-- Entry, `PaperAccount.open_short` (`paper_trade.py` lines 43–53): refused when the
symbol already has a position; otherwise records a fresh level-1 position. -/
def open_short (acc : PaperAccount) (symbol : Symbol) (qty entry_price : ℚ) :
    PaperAccount :=
  if (lookupPos acc.positions symbol).isSome then acc
  else
    { acc with
      positions := acc.positions ++ [(symbol,
        { entry_price := entry_price
          avg_price := entry_price
          total_qty := qty
          level := 1 })]
      log := acc.log ++ [LogEvent.entry symbol qty entry_price] }

/-- Averaging, `PaperAccount.average_short` (`paper_trade.py` lines 55–67): no-op when the
symbol is absent or `level ≥ AVG_LEVELS`; otherwise folds the new fill into the
volume-weighted average price. (A fill making `total_qty + new_qty = 0` would
raise ZeroDivisionError in Python; in ℚ the division yields 0 — all claims about
this transition carry the positivity hypotheses that exclude that case.) -/
def average_short (cfg : Config) (acc : PaperAccount) (symbol : Symbol)
    (new_qty current_price : ℚ) : PaperAccount :=
  match lookupPos acc.positions symbol with
  | none => acc
  | some pos =>
    if cfg.avg_levels ≤ pos.level then acc
    else
      let new_total_qty := pos.total_qty + new_qty
      let new_avg_price :=
        (pos.avg_price * pos.total_qty + current_price * new_qty) / new_total_qty
      { acc with
        positions := updatePos acc.positions symbol
          { pos with
            avg_price := new_avg_price
            total_qty := new_total_qty
            level := pos.level + 1 }
        log := acc.log ++
          [LogEvent.avg symbol (pos.level + 1) new_qty current_price new_avg_price] }

/-- Exit checks, `PaperAccount.check_tp_liquidation` (`paper_trade.py` lines 69–90): the
take-profit branch is tested first; the liquidation branch only when TP did not
fire. Each firing branch credits the realized PnL and deletes the position. -/
def check_tp_liquidation (cfg : Config) (acc : PaperAccount) (symbol : Symbol)
    (current_price : ℚ) : PaperAccount :=
  match lookupPos acc.positions symbol with
  | none => acc
  | some pos =>
    let tp_price := pos.avg_price * (1 - cfg.tp_percent / 100)
    if current_price ≤ tp_price then
      let pnl := pos.total_qty * (pos.avg_price - current_price)
      { balance := acc.balance + pnl
        positions := erasePos acc.positions symbol
        log := acc.log ++
          [LogEvent.tpClose symbol current_price pnl (acc.balance + pnl)] }
    else
      let liq_margin := 1 / cfg.leverage
      let liq_price := pos.avg_price * (1 + liq_margin)
      if liq_price ≤ current_price then
        let pnl := -(pos.total_qty * pos.avg_price * liq_margin)
        { balance := acc.balance + pnl
          positions := erasePos acc.positions symbol
          log := acc.log ++
            [LogEvent.liquidation symbol current_price pnl (acc.balance + pnl)] }
      else acc

/-! ## Signal scanner

The pump detection loop appears verbatim in `main.py` lines 93–104 and
`paper_trade.py` lines 147–158. A candle window is modelled by its list of
closing prices (only `kl[i][4]` and `len(kl)` are consumed by the source). -/

/-- One timeframe check of the scan loop body: a window qualifies when it has at
least 3 candles and `growth = (close[2] - close[0]) / close[0]` (0 when
`close[0] ≤ 0`) reaches `PUMP_PERCENT / 100`. Windows with fewer than 3 candles
are skipped (`continue`), i.e. never qualify. -/
def tfQualifies (closes : List ℚ) (pump_percent : ℚ) : Bool :=
  if closes.length < 3 then false
  else
    let close_old := closes.getD 0 0
    let close_now := closes.getD 2 0
    let growth := if 0 < close_old then (close_now - close_old) / close_old else 0
    pump_percent / 100 ≤ growth

/-- The `for tf in TIMEFRAMES` loop with `break`: index of the first qualifying
window, in configured order. -/
def firstPump (windows : List (List ℚ)) (pump_percent : ℚ) : Option ℕ :=
  match windows with
  | [] => none
  | w :: rest =>
    if tfQualifies w pump_percent then some 0
    else (firstPump rest pump_percent).map (· + 1)

/-- The external world observed during one tick: market data snapshot plus, for
live mode, the responses of the exchange (order result, leverage ack). -/
structure MarketData where
  klines : Symbol → ℕ → List ℚ
  price : Symbol → ℚ
  oi_growth : Symbol → ℚ
  qty_precision : Symbol → ℕ
  set_leverage_ok : Symbol → Bool
  exchange_order : Symbol → Option ℕ

/-- Pump scan for one symbol: the windows of the configured timeframes, in
order. -/
def pumpSignal (cfg : Config) (md : MarketData) (symbol : Symbol) : Option ℕ :=
  firstPump (cfg.timeframes.map (md.klines symbol)) cfg.pump_percent

/-! ## Paper-mode tick (`paper_trade.py` main loop, lines 135–201) -/

/-- New-entry scan body for one symbol (`paper_trade.py` lines 143–176):
skip if already in a position, then pump scan, then open-interest filter, then
price guard, then sizing and `open_short`. -/
def entryStepSymbol (cfg : Config) (md : MarketData) (acc : PaperAccount)
    (symbol : Symbol) : PaperAccount :=
  if (lookupPos acc.positions symbol).isSome then acc
  else if (pumpSignal cfg md symbol).isNone then acc
  else if md.oi_growth symbol < cfg.min_oi_growth then acc
  else
    let price := md.price symbol
    if price ≤ 0 then acc
    else
      let qty := roundTo (acc.balance * cfg.position_size / price)
        (md.qty_precision symbol)
      open_short acc symbol qty price

/-- Monitoring body for one open symbol (`paper_trade.py` lines 181–195):
averaging when eligible, then the TP/liquidation check at the same price. -/
def monitorSymbol (cfg : Config) (md : MarketData) (acc : PaperAccount)
    (symbol : Symbol) : PaperAccount :=
  let price := md.price symbol
  if price ≤ 0 then acc
  else
    match lookupPos acc.positions symbol with
    | none => acc
    | some pos =>
      let drop_pct := (price - pos.avg_price) / pos.avg_price * 100
      let acc1 :=
        if cfg.use_averaging ∧ pos.level < cfg.avg_levels ∧
            cfg.avg_drop_percent ≤ drop_pct then
          let new_qty := roundTo
            (acc.balance * cfg.position_size * cfg.avg_multiplier / price)
            (md.qty_precision symbol)
          average_short cfg acc symbol new_qty price
        else acc
      check_tp_liquidation cfg acc1 symbol price

/-- The new-entry phase, `paper_trade.py` lines 139–176: one max-open-trades
check before the loop over symbols. -/
def entryPhase (cfg : Config) (md : MarketData) (symbols : List Symbol)
    (acc : PaperAccount) : PaperAccount :=
  if cfg.max_open_trades ≤ acc.positions.length then acc
  else symbols.foldl (entryStepSymbol cfg md) acc

/-- The monitoring phase, `paper_trade.py` lines 180–195: iterate over a
snapshot of the open-position keys. -/
def monitorPhase (cfg : Config) (md : MarketData) (acc : PaperAccount) :
    PaperAccount :=
  (acc.positions.map Prod.fst).foldl (monitorSymbol cfg md) acc

/-- One tick of the paper-mode loop body (`paper_trade.py` lines 135–201):
the new-entry scan runs FIRST, the monitoring pass (averaging, TP, liquidation)
runs after it, over the keys present when monitoring starts. -/
def paperTick (cfg : Config) (md : MarketData) (symbols : List Symbol)
    (acc : PaperAccount) : PaperAccount :=
  monitorPhase cfg md (entryPhase cfg md symbols acc)

/-- Modelled from the claim wording of C8 (spec §4.5), NOT from the source:
first evaluate averaging then TP/liquidation for every open position, then run
the new-entry scan for symbols without a position, with the max-open-trades
check gating only the scan. Used solely to compare against `paperTick`. -/
def specTickPaper (cfg : Config) (md : MarketData) (symbols : List Symbol)
    (acc : PaperAccount) : PaperAccount :=
  let acc1 := monitorPhase cfg md acc
  entryPhase cfg md symbols acc1

/-! ## Live mode (`main.py`, REAL_ACCOUNT = True) and the order gateway

Live per-symbol tracking is the module-global `averaging_state`
(`main.py` line 7: symbol -> {entry_price, total_qty, level}); the exchange
order id held in a returned order dict is modelled as ℕ. -/

/-- One entry of `averaging_state`. -/
structure LiveState where
  entry_price : ℚ
  total_qty : ℚ
  level : ℕ
  deriving DecidableEq

abbrev LiveMap := List (Symbol × LiveState)

/-- Lookup in `averaging_state` (`averaging_state.get(symbol, {})`). -/
def lookupLive (st : LiveMap) (s : Symbol) : Option LiveState :=
  match st.find? (fun e => e.1 == s) with
  | some e => some e.2
  | none => none

/-- Assignment `averaging_state[symbol] = v`. -/
def setLive (st : LiveMap) (s : Symbol) (v : LiveState) : LiveMap :=
  if (st.find? (fun e => e.1 == s)).isSome then
    st.map (fun e => if e.1 == s then (e.1, v) else e)
  else st ++ [(s, v)]

/-- An exchange-reported open position (`client.get_open_positions()` entry). -/
structure ExchangePos where
  symbol : Symbol
  positionAmt : ℚ
  entryPrice : ℚ
  deriving DecidableEq

/-- Order submission guard of `BinanceFuturesClient.open_short_market`
(`binance_client.py` lines 138–153): the quantity is re-rounded; a rounded
quantity ≤ 0 yields None without contacting the exchange; otherwise the result
is whatever the exchange returns (`none` models the caught exception path). -/
def open_short_market (qty_precision : ℕ) (exchange_order : Option ℕ)
    (quantity : ℚ) : Option ℕ :=
  let qty := roundTo quantity qty_precision
  if qty ≤ 0 then none
  else exchange_order

/-- State commit after a live entry order, `main.py` lines 128–135: the value
returned by `open_short_market` is bound here but never inspected by the
source — `averaging_state[symbol]` is assigned unconditionally. -/
def liveEntryCommit (orderResult : Option ℕ) (st : LiveMap) (symbol : Symbol)
    (price qty : ℚ) : LiveMap :=
  match orderResult with
  | _ => setLive st symbol { entry_price := price, total_qty := qty, level := 1 }

/-- State commit after a live averaging order, `main.py` lines 73–79: again the
`open_short_market` result is discarded and the state is advanced
unconditionally. -/
def liveAvgCommit (orderResult : Option ℕ) (st : LiveMap) (symbol : Symbol)
    (s : LiveState) (current_price new_qty : ℚ) : LiveMap :=
  match orderResult with
  | _ =>
    let new_total_qty := s.total_qty + new_qty
    let new_avg_price :=
      (s.entry_price * s.total_qty + current_price * new_qty) / new_total_qty
    setLive st symbol
      { entry_price := new_avg_price, total_qty := new_total_qty,
        level := s.level + 1 }

/-- Live averaging / state-recovery pass for one exchange position
(`main.py` lines 42–86, REAL_ACCOUNT branch). -/
def liveAvgPass (cfg : Config) (md : MarketData) (balance : ℚ) (st : LiveMap)
    (pos : ExchangePos) : LiveMap :=
  if 0 ≤ pos.positionAmt then st
  else
    match lookupLive st pos.symbol with
    | none =>
      setLive st pos.symbol
        { entry_price := pos.entryPrice, total_qty := |pos.positionAmt|,
          level := 1 }
    | some s =>
      let price := md.price pos.symbol
      if price ≤ 0 then st
      else
        let drop_pct := (price - s.entry_price) / s.entry_price * 100
        if s.level < cfg.avg_levels ∧ cfg.avg_drop_percent ≤ drop_pct then
          let new_qty := roundTo
            (balance * cfg.position_size * cfg.avg_multiplier / price)
            (md.qty_precision pos.symbol)
          liveAvgCommit
            (open_short_market (md.qty_precision pos.symbol)
              (md.exchange_order pos.symbol) new_qty)
            st pos.symbol s price new_qty
        else st

/-- Live new-entry scan for one symbol (`main.py` lines 89–139, REAL_ACCOUNT
branch): skip symbols with an exchange-reported short, pump scan, OI filter,
leverage ack, price guard, sizing, order, unconditional state commit. -/
def liveEntryPass (cfg : Config) (md : MarketData) (balance : ℚ)
    (open_pos : List ExchangePos) (st : LiveMap) (symbol : Symbol) : LiveMap :=
  if open_pos.any (fun p => p.symbol == symbol && decide (p.positionAmt < 0)) then st
  else if (pumpSignal cfg md symbol).isNone then st
  else if md.oi_growth symbol < cfg.min_oi_growth then st
  else if ¬ md.set_leverage_ok symbol then st
  else
    let price := md.price symbol
    if price ≤ 0 then st
    else
      let qty := roundTo (balance * cfg.position_size / price)
        (md.qty_precision symbol)
      liveEntryCommit
        (open_short_market (md.qty_precision symbol)
          (md.exchange_order symbol) qty)
        st symbol price qty

/-- One tick of the live loop body (`main.py` lines 30–145): when the
open-position count reaches MAX_OPEN_TRADES the `continue` on line 39 skips
EVERYTHING (averaging, state recovery and entry scan alike); otherwise the
averaging pass over exchange positions runs first, then the entry scan. -/
def liveTick (cfg : Config) (md : MarketData) (symbols : List Symbol)
    (balance : ℚ) (open_pos : List ExchangePos) (st : LiveMap) : LiveMap :=
  if cfg.max_open_trades ≤ open_pos.length then st
  else
    let st1 := open_pos.foldl (liveAvgPass cfg md balance) st
    symbols.foldl (liveEntryPass cfg md balance open_pos) st1

/-! ## Reachability of paper-account states

Closure of the three `PaperAccount` methods from the fresh account, with
arbitrary arguments — exactly the mutations the class exposes. -/

/-- Paper-account states reachable through the three methods. -/
inductive Reachable (cfg : Config) : PaperAccount → Prop
  | init : Reachable cfg initialAccount
  | step_open (acc : PaperAccount) (s : Symbol) (q p : ℚ) :
      Reachable cfg acc → Reachable cfg (open_short acc s q p)
  | step_avg (acc : PaperAccount) (s : Symbol) (q p : ℚ) :
      Reachable cfg acc → Reachable cfg (average_short cfg acc s q p)
  | step_check (acc : PaperAccount) (s : Symbol) (p : ℚ) :
      Reachable cfg acc → Reachable cfg (check_tp_liquidation cfg acc s p)

/-- Reachability when every fill quantity passed to entry/averaging is
positive (the regime the spec's invariant presumes). -/
inductive ReachablePos (cfg : Config) : PaperAccount → Prop
  | init : ReachablePos cfg initialAccount
  | step_open (acc : PaperAccount) (s : Symbol) (q p : ℚ) :
      0 < q → ReachablePos cfg acc → ReachablePos cfg (open_short acc s q p)
  | step_avg (acc : PaperAccount) (s : Symbol) (q p : ℚ) :
      0 < q → ReachablePos cfg acc → ReachablePos cfg (average_short cfg acc s q p)
  | step_check (acc : PaperAccount) (s : Symbol) (p : ℚ) :
      ReachablePos cfg acc → ReachablePos cfg (check_tp_liquidation cfg acc s p)

/-! ## Association-list helper lemmas -/

@[simp] theorem lookupPos_nil (s : Symbol) : lookupPos [] s = none := rfl

@[simp] theorem lookupPos_cons (k : Symbol) (p : Position) (t : PosMap)
    (s : Symbol) :
    lookupPos ((k, p) :: t) s = if k = s then some p else lookupPos t s := by
  by_cases h : k = s <;> simp [lookupPos, List.find?_cons, h]

@[simp] theorem updatePos_nil (s : Symbol) (v : Position) :
    updatePos [] s v = [] := rfl

@[simp] theorem updatePos_cons (k : Symbol) (p : Position) (t : PosMap)
    (s : Symbol) (v : Position) :
    updatePos ((k, p) :: t) s v =
      (if k = s then (k, v) else (k, p)) :: updatePos t s v := by
  by_cases h : k = s <;> simp [updatePos, h]

@[simp] theorem erasePos_nil (s : Symbol) : erasePos [] s = [] := rfl

@[simp] theorem erasePos_cons (k : Symbol) (p : Position) (t : PosMap)
    (s : Symbol) :
    erasePos ((k, p) :: t) s =
      if k = s then erasePos t s else (k, p) :: erasePos t s := by
  by_cases h : k = s <;> simp [erasePos, h]

theorem lookupPos_eq_none_iff (ps : PosMap) (s : Symbol) :
    lookupPos ps s = none ↔ ∀ e ∈ ps, e.1 ≠ s := by
  induction ps with
  | nil => simp
  | cons e t ih =>
    obtain ⟨k, p⟩ := e
    by_cases h : k = s
    · simp [h]
    · simp [h, ih]

theorem lookupPos_mem (ps : PosMap) (s : Symbol) (pos : Position)
    (h : lookupPos ps s = some pos) : (s, pos) ∈ ps := by
  induction ps with
  | nil => simp at h
  | cons e t ih =>
    obtain ⟨k, p⟩ := e
    by_cases hk : k = s
    · rw [lookupPos_cons, if_pos hk] at h
      have : p = pos := by simpa using h
      subst hk this
      exact List.mem_cons_self _ _
    · rw [lookupPos_cons, if_neg hk] at h
      exact List.mem_cons_of_mem _ (ih h)

theorem lookupPos_update_self (ps : PosMap) (s : Symbol) (pos v : Position)
    (h : lookupPos ps s = some pos) :
    lookupPos (updatePos ps s v) s = some v := by
  induction ps with
  | nil => simp at h
  | cons e t ih =>
    obtain ⟨k, p⟩ := e
    by_cases hk : k = s
    · simp [hk]
    · rw [lookupPos_cons, if_neg hk] at h
      simp [hk, ih h]

theorem lookupPos_erase_self (ps : PosMap) (s : Symbol) :
    lookupPos (erasePos ps s) s = none := by
  induction ps with
  | nil => simp
  | cons e t ih =>
    obtain ⟨k, p⟩ := e
    by_cases hk : k = s
    · simp [hk, ih]
    · simp [hk, ih]

theorem mem_updatePos (ps : PosMap) (s : Symbol) (v : Position)
    (e : Symbol × Position) (h : e ∈ updatePos ps s v) : e ∈ ps ∨ e.2 = v := by
  induction ps with
  | nil => simp [updatePos] at h
  | cons a t ih =>
    obtain ⟨k, p⟩ := a
    rw [updatePos_cons] at h
    rcases List.mem_cons.mp h with h1 | h1
    · by_cases hk : k = s
      · right
        rw [if_pos hk] at h1
        rw [h1]
      · left
        rw [if_neg hk] at h1
        exact List.mem_cons.mpr (Or.inl h1)
    · rcases ih h1 with h2 | h2
      · exact Or.inl (List.mem_cons_of_mem _ h2)
      · exact Or.inr h2

theorem map_fst_updatePos (ps : PosMap) (s : Symbol) (v : Position) :
    (updatePos ps s v).map Prod.fst = ps.map Prod.fst := by
  unfold updatePos
  rw [List.map_map]
  apply List.map_congr_left
  intro e _
  by_cases h : e.1 = s <;> simp [h]

theorem erasePos_sublist (ps : PosMap) (s : Symbol) :
    List.Sublist (erasePos ps s) ps :=
  List.filter_sublist ps

/-! ## Claim theorems -/

/-- C10: for a symbol absent from the positions map, both `average_short` and
`check_tp_liquidation` return the account unchanged (balance, position map and
log untouched); in the embedding both functions are total, so no exception can
arise. -/
theorem C10_absent_symbol_noop (cfg : Config) (acc : PaperAccount) (s : Symbol)
    (q p p' : ℚ) (h : lookupPos acc.positions s = none) :
    average_short cfg acc s q p = acc ∧
    check_tp_liquidation cfg acc s p' = acc := by
  constructor
  · simp only [average_short, h]
  · simp only [check_tp_liquidation, h]

/-- C10 witness: the fresh account holds no position for symbol 0, and both
calls leave it exactly unchanged. -/
theorem C10_witness :
    average_short defaultConfig initialAccount 0 5 100 = initialAccount ∧
    check_tp_liquidation defaultConfig initialAccount 0 90 = initialAccount :=
  C10_absent_symbol_noop defaultConfig initialAccount 0 5 100 90 (by
    simp [initialAccount])

/-- C9: an entry attempt for a symbol that already has an open position is
refused — `open_short` returns the account exactly unchanged and the scan body
for that symbol is the identity — and every reachable account has pairwise
distinct position keys, so a symbol never holds two positions. -/
theorem C9_single_position_per_symbol (cfg : Config) (md : MarketData)
    (acc : PaperAccount) (s : Symbol) (q p : ℚ)
    (h : (lookupPos acc.positions s).isSome = true) :
    open_short acc s q p = acc ∧ entryStepSymbol cfg md acc s = acc ∧
    ∀ a, Reachable cfg a → (a.positions.map Prod.fst).Nodup := by
  refine ⟨by simp [open_short, h], by simp [entryStepSymbol, h], ?_⟩
  intro a ha
  induction ha with
  | init => simp [initialAccount]
  | step_open acc' s' q' p' _ ih =>
    by_cases hs : (lookupPos acc'.positions s').isSome
    · simpa [open_short, hs] using ih
    · have hnone : lookupPos acc'.positions s' = none := by
        cases hl : lookupPos acc'.positions s' with
        | none => rfl
        | some v => rw [hl] at hs; simp at hs
      simp only [open_short, hs, Bool.false_eq_true, if_false, List.map_append]
      refine List.Nodup.append ih (by simp) ?_
      intro x hx hx'
      have hxs : x = s' := by simpa using hx'
      obtain ⟨e, he, hex⟩ := List.mem_map.mp hx
      exact ((lookupPos_eq_none_iff _ _).mp hnone e he) (by rw [hex, hxs])
  | step_avg acc' s' q' p' _ ih =>
    cases hl : lookupPos acc'.positions s' with
    | none => simpa [average_short, hl] using ih
    | some pos =>
      by_cases hlev : cfg.avg_levels ≤ pos.level
      · simpa [average_short, hl, hlev] using ih
      · simp only [average_short, hl, hlev, if_false]
        simpa [map_fst_updatePos] using ih
  | step_check acc' s' p' _ ih =>
    cases hl : lookupPos acc'.positions s' with
    | none => simpa [check_tp_liquidation, hl] using ih
    | some pos =>
      have herase :
          ((erasePos acc'.positions s').map Prod.fst).Nodup :=
        ih.sublist ((erasePos_sublist acc'.positions s').map Prod.fst)
      simp only [check_tp_liquidation, hl]
      split_ifs
      · simpa using herase
      · simpa using herase
      · exact ih

/-- C9 witness: with a position open on symbol 0, a second `open_short` and the
scan body for symbol 0 both leave the account unchanged. -/
theorem C9_witness :
    open_short (open_short initialAccount 0 5 100) 0 7 200 =
      open_short initialAccount 0 5 100 := by
  have h := C9_single_position_per_symbol defaultConfig
    { klines := fun _ _ => [], price := fun _ => 0, oi_growth := fun _ => 0,
      qty_precision := fun _ => 0, set_leverage_ok := fun _ => false,
      exchange_order := fun _ => none }
    (open_short initialAccount 0 5 100) 0 7 200
    (by simp [open_short, initialAccount])
  exact h.1

/-- C2: an averaging transition applied to an open position (level below the
configured maximum) with prior average A, prior quantity Q > 0, fill quantity q
with Q + q > 0 and fill price p yields avg_price = (A·Q + p·q)/(Q + q),
total_qty = Q + q and level incremented by exactly one, with the entry price
and balance untouched. -/
theorem C2_weighted_average (cfg : Config) (acc : PaperAccount) (s : Symbol)
    (q p : ℚ) (pos : Position)
    (hpos : lookupPos acc.positions s = some pos)
    (hlvl : pos.level < cfg.avg_levels)
    (hQ : 0 < pos.total_qty) (hQq : 0 < pos.total_qty + q) :
    lookupPos (average_short cfg acc s q p).positions s = some
      { entry_price := pos.entry_price
        avg_price := (pos.avg_price * pos.total_qty + p * q) / (pos.total_qty + q)
        total_qty := pos.total_qty + q
        level := pos.level + 1 } ∧
    (average_short cfg acc s q p).balance = acc.balance := by
  have hguard : ¬ cfg.avg_levels ≤ pos.level := not_le.mpr hlvl
  constructor
  · simp only [average_short, hpos, hguard, if_false]
    exact lookupPos_update_self _ _ _ _ hpos
  · simp [average_short, hpos, hguard]

/-- C2 witness (Scenario C): entry fill qty 5 at 100 then averaging fill qty 5
at 110 yields avg_price 105 and level 2. -/
theorem C2_witness :
    lookupPos (average_short defaultConfig
        (open_short initialAccount 0 5 100) 0 5 110).positions 0 =
      some { entry_price := 100, avg_price := 105, total_qty := 10, level := 2 } := by
  have h := (C2_weighted_average defaultConfig (open_short initialAccount 0 5 100)
    0 5 110 { entry_price := 100, avg_price := 100, total_qty := 5, level := 1 }
    (by simp [open_short, initialAccount]) (by norm_num [defaultConfig])
    (by norm_num) (by norm_num)).1
  rw [h]
  norm_num [Position.mk.injEq]

/-- C3: for an open position with average price A > 0 and quantity Q, the
take-profit close fires exactly when the price p satisfies
p ≤ A·(1 − tp_pct/100); when it fires, PnL = Q·(A − p) is credited to the
balance and the position is removed, in the same transition. -/
theorem C3_take_profit (cfg : Config) (acc : PaperAccount) (s : Symbol)
    (p : ℚ) (pos : Position)
    (hpos : lookupPos acc.positions s = some pos)
    (hA : 0 < pos.avg_price) (hQ : 0 < pos.total_qty) :
    ((check_tp_liquidation cfg acc s p).log =
        acc.log ++ [LogEvent.tpClose s p (pos.total_qty * (pos.avg_price - p))
          (acc.balance + pos.total_qty * (pos.avg_price - p))] ∧
      (check_tp_liquidation cfg acc s p).balance =
        acc.balance + pos.total_qty * (pos.avg_price - p) ∧
      lookupPos (check_tp_liquidation cfg acc s p).positions s = none) ↔
    p ≤ pos.avg_price * (1 - cfg.tp_percent / 100) := by
  constructor
  · rintro ⟨hlog, -, -⟩
    by_cases hc : p ≤ pos.avg_price * (1 - cfg.tp_percent / 100)
    · exact hc
    · exfalso
      simp only [check_tp_liquidation, hpos] at hlog
      rw [if_neg hc] at hlog
      by_cases hliq : pos.avg_price * (1 + 1 / cfg.leverage) ≤ p
      · rw [if_pos hliq] at hlog
        simp at hlog
      · rw [if_neg hliq] at hlog
        have := congrArg List.length hlog
        simp at this
  · intro hc
    simp only [check_tp_liquidation, hpos]
    rw [if_pos hc]
    exact ⟨rfl, rfl, lookupPos_erase_self _ _⟩

/-- C3 witness (Scenario A): avg_price 100, total_qty 10, tp_pct 3 — at price
97 the TP fires, PnL is 30 and the position is gone. -/
theorem C3_witness :
    (check_tp_liquidation defaultConfig
        { balance := 10, positions := [(0,
            { entry_price := 100, avg_price := 100, total_qty := 10, level := 1 })],
          log := [] } 0 97).balance = 10 + 10 * (100 - 97) ∧
    lookupPos (check_tp_liquidation defaultConfig
        { balance := 10, positions := [(0,
            { entry_price := 100, avg_price := 100, total_qty := 10, level := 1 })],
          log := [] } 0 97).positions 0 = none := by
  have h := (C3_take_profit defaultConfig
    { balance := 10, positions := [(0,
        { entry_price := 100, avg_price := 100, total_qty := 10, level := 1 })],
      log := [] } 0 97
    { entry_price := 100, avg_price := 100, total_qty := 10, level := 1 }
    (by simp) (by norm_num) (by norm_num)).mpr (by norm_num [defaultConfig])
  exact ⟨h.2.1, h.2.2⟩

/-- C4: for an open position with average price A > 0, liquidation fires
exactly when p ≥ A·(1 + 1/leverage), crediting PnL = −Q·A·(1/leverage) and
removing the position; with tp_pct > 0 and leverage > 0 the TP and liquidation
conditions are mutually exclusive at any single price; and the TP branch is
evaluated first: whenever the TP condition holds the transition is the TP
close. -/
theorem C4_liquidation (cfg : Config) (acc : PaperAccount) (s : Symbol)
    (p : ℚ) (pos : Position)
    (hpos : lookupPos acc.positions s = some pos)
    (hA : 0 < pos.avg_price) (htp : 0 < cfg.tp_percent)
    (hlev : 0 < cfg.leverage) :
    (((check_tp_liquidation cfg acc s p).log =
        acc.log ++ [LogEvent.liquidation s p
          (-(pos.total_qty * pos.avg_price * (1 / cfg.leverage)))
          (acc.balance + -(pos.total_qty * pos.avg_price * (1 / cfg.leverage)))] ∧
      (check_tp_liquidation cfg acc s p).balance =
        acc.balance + -(pos.total_qty * pos.avg_price * (1 / cfg.leverage)) ∧
      lookupPos (check_tp_liquidation cfg acc s p).positions s = none) ↔
      pos.avg_price * (1 + 1 / cfg.leverage) ≤ p) ∧
    ¬(p ≤ pos.avg_price * (1 - cfg.tp_percent / 100) ∧
      pos.avg_price * (1 + 1 / cfg.leverage) ≤ p) ∧
    (p ≤ pos.avg_price * (1 - cfg.tp_percent / 100) →
      (check_tp_liquidation cfg acc s p).log =
        acc.log ++ [LogEvent.tpClose s p (pos.total_qty * (pos.avg_price - p))
          (acc.balance + pos.total_qty * (pos.avg_price - p))]) := by
  have hexcl : ¬(p ≤ pos.avg_price * (1 - cfg.tp_percent / 100) ∧
      pos.avg_price * (1 + 1 / cfg.leverage) ≤ p) := by
    rintro ⟨h1, h2⟩
    have hd : 0 < 1 / cfg.leverage := by positivity
    nlinarith [mul_pos hA hd, mul_pos hA htp]
  refine ⟨?_, hexcl, ?_⟩
  · constructor
    · rintro ⟨hlog, -, -⟩
      by_cases hliq : pos.avg_price * (1 + 1 / cfg.leverage) ≤ p
      · exact hliq
      · exfalso
        simp only [check_tp_liquidation, hpos] at hlog
        by_cases hc : p ≤ pos.avg_price * (1 - cfg.tp_percent / 100)
        · rw [if_pos hc] at hlog
          simp at hlog
        · rw [if_neg hc, if_neg hliq] at hlog
          have := congrArg List.length hlog
          simp at this
    · intro hliq
      have hc : ¬ p ≤ pos.avg_price * (1 - cfg.tp_percent / 100) := by
        intro hc
        exact hexcl ⟨hc, hliq⟩
      simp only [check_tp_liquidation, hpos]
      rw [if_neg hc, if_pos hliq]
      exact ⟨rfl, rfl, lookupPos_erase_self _ _⟩
  · intro hc
    simp only [check_tp_liquidation, hpos]
    rw [if_pos hc]

/-- C4 witness (Scenario B): avg_price 100, total_qty 10, leverage 10 — at
price 110 liquidation fires and PnL is −100. -/
theorem C4_witness :
    (check_tp_liquidation defaultConfig
        { balance := 10, positions := [(1,
            { entry_price := 100, avg_price := 100, total_qty := 10, level := 1 })],
          log := [] } 1 110).balance = 10 + -(10 * 100 * (1 / 10)) ∧
    lookupPos (check_tp_liquidation defaultConfig
        { balance := 10, positions := [(1,
            { entry_price := 100, avg_price := 100, total_qty := 10, level := 1 })],
          log := [] } 1 110).positions 1 = none := by
  have h := ((C4_liquidation defaultConfig
    { balance := 10, positions := [(1,
        { entry_price := 100, avg_price := 100, total_qty := 10, level := 1 })],
      log := [] } 1 110
    { entry_price := 100, avg_price := 100, total_qty := 10, level := 1 }
    (by simp) (by norm_num) (by norm_num [defaultConfig])
    (by norm_num [defaultConfig])).1).mpr (by norm_num [defaultConfig])
  refine ⟨?_, h.2.2⟩
  rw [h.2.1]
  norm_num [defaultConfig]

/-- C7: timeframe windows are examined in configured order; a window with
fewer than 3 candles never qualifies; for an examined window with positive base
close the growth criterion is thr/100 ≤ (close[2] − close[0])/close[0]; the
first qualifying window determines the signal (short-circuit: every earlier
window failed); no signal is produced exactly when no window qualifies; and
the boundary is inclusive: closes [100, 105, 108] qualify at the 8% threshold
of the shipped configuration. -/
theorem C7_first_timeframe_wins (windows : List (List ℚ)) (thr : ℚ) :
    (∀ i, firstPump windows thr = some i →
      ∃ w, windows[i]? = some w ∧ tfQualifies w thr = true ∧
        ∀ j, j < i → ∀ wj, windows[j]? = some wj →
          tfQualifies wj thr = false) ∧
    (firstPump windows thr = none ↔
      ∀ w ∈ windows, tfQualifies w thr = false) ∧
    (∀ w : List ℚ, w.length < 3 → tfQualifies w thr = false) ∧
    (∀ w : List ℚ, 3 ≤ w.length → 0 < w.getD 0 0 →
      (tfQualifies w thr = true ↔
        thr / 100 ≤ (w.getD 2 0 - w.getD 0 0) / w.getD 0 0)) ∧
    firstPump [[100, 105, 108]] defaultConfig.pump_percent = some 0 := by
  refine ⟨?_, ?_, ?_, ?_, ?_⟩
  · induction windows with
    | nil => intro i h; simp [firstPump] at h
    | cons w rest ih =>
      intro i h
      cases hq : tfQualifies w thr with
      | true =>
        rw [firstPump, if_pos hq] at h
        obtain rfl : (0 : ℕ) = i := by simpa using h
        exact ⟨w, by simp, hq, by omega⟩
      | false =>
        rw [firstPump, if_neg (by simp [hq])] at h
        obtain ⟨i', hi', rfl⟩ := Option.map_eq_some'.mp h
        obtain ⟨w', hw', hq', hprior⟩ := ih i' hi'
        refine ⟨w', by simpa using hw', hq', ?_⟩
        intro j hj wj hwj
        cases j with
        | zero =>
          have : w = wj := by simpa using hwj
          rw [← this]
          exact hq
        | succ j' =>
          exact hprior j' (by omega) wj (by simpa using hwj)
  · induction windows with
    | nil => simp [firstPump]
    | cons w rest ih =>
      cases hq : tfQualifies w thr with
      | true => simp [firstPump, hq]
      | false => simp [firstPump, hq, Option.map_eq_none', ih]
  · intro w hw
    rw [tfQualifies, if_pos hw]
  · intro w h3 h0
    rw [tfQualifies, if_neg (not_lt.mpr h3)]
    simp only [h0, if_pos]
    exact decide_eq_true_iff
  · rw [firstPump, if_pos]
    rw [tfQualifies]
    norm_num [defaultConfig, List.getD]

/-- C7 witness: the boundary scenario extracted by applying the theorem at the
concrete window list. -/
theorem C7_witness :
    firstPump [[100, 105, 108]] defaultConfig.pump_percent = some 0 :=
  (C7_first_timeframe_wins [[100, 105, 108]] defaultConfig.pump_percent).2.2.2.2

/-- The quantity the paper entry flow computes at balance 10 (the initial
balance), price 100 and quantity precision 0: round(10 × 0.05 / 100, 0). -/
def zeroQty : ℚ :=
  roundTo (INITIAL_BALANCE * defaultConfig.position_size / 100) 0

theorem zeroQty_eq : zeroQty = 0 := by
  have h : pyRound ((INITIAL_BALANCE * defaultConfig.position_size / 100)
      * 10 ^ 0) = 0 :=
    pyRound_low _ 0 (by norm_num [defaultConfig, INITIAL_BALANCE])
      (by norm_num [defaultConfig, INITIAL_BALANCE])
  rw [zeroQty, roundTo_eq _ _ 0 h]
  norm_num

/-- C5 counterexample: with the shipped configuration, the entry sizing at
balance 10, price 100 and quantity precision 0 rounds to 0, and `open_short`
then records a reachable position whose total_qty is 0, refuting the claimed
total_qty > 0 invariant. -/
theorem C5_counterexample :
    Reachable defaultConfig (open_short initialAccount 0 zeroQty 100) ∧
    lookupPos (open_short initialAccount 0 zeroQty 100).positions 0 =
      some { entry_price := 100, avg_price := 100, total_qty := 0, level := 1 } := by
  refine ⟨Reachable.step_open _ _ _ _ Reachable.init, ?_⟩
  simp [open_short, initialAccount, zeroQty_eq]

/-- C5 (amended): in every reachable paper-account state each open position
has 1 ≤ level ≤ AVG_LEVELS (for any configured AVG_LEVELS ≥ 1), and averaging
is refused whenever level ≥ AVG_LEVELS, so level never exceeds the maximum;
total_qty > 0 holds in every state reachable under entry and averaging fills
of positive quantity — positivity the code itself does not enforce. -/
theorem C5_level_and_qty_invariants (cfg : Config) (hcfg : 1 ≤ cfg.avg_levels) :
    (∀ acc, Reachable cfg acc →
      ∀ e ∈ acc.positions, 1 ≤ e.2.level ∧ e.2.level ≤ cfg.avg_levels) ∧
    (∀ acc s q p pos, lookupPos acc.positions s = some pos →
      cfg.avg_levels ≤ pos.level → average_short cfg acc s q p = acc) ∧
    (∀ acc, ReachablePos cfg acc → ∀ e ∈ acc.positions, 0 < e.2.total_qty) := by
  refine ⟨?_, ?_, ?_⟩
  · intro acc h
    induction h with
    | init => simp [initialAccount]
    | step_open acc' s' q' p' _ ih =>
      by_cases hs : (lookupPos acc'.positions s').isSome
      · simpa [open_short, hs] using ih
      · simp only [open_short, hs, Bool.false_eq_true, if_false]
        intro e he
        rcases List.mem_append.mp he with h1 | h1
        · exact ih e h1
        · have : e.2.level = 1 := by
            have := List.mem_singleton.mp h1
            rw [this]
          rw [this]
          exact ⟨le_refl 1, hcfg⟩
    | step_avg acc' s' q' p' _ ih =>
      cases hl : lookupPos acc'.positions s' with
      | none => simpa [average_short, hl] using ih
      | some pos =>
        by_cases hlev : cfg.avg_levels ≤ pos.level
        · simpa [average_short, hl, hlev] using ih
        · simp only [average_short, hl, hlev, if_false]
          intro e he
          rcases mem_updatePos _ _ _ _ he with h1 | h1
          · exact ih e h1
          · rw [h1]
            refine ⟨Nat.le_add_left 1 pos.level, ?_⟩
            show pos.level + 1 ≤ cfg.avg_levels
            omega
    | step_check acc' s' p' _ ih =>
      cases hl : lookupPos acc'.positions s' with
      | none => simpa [check_tp_liquidation, hl] using ih
      | some pos =>
        simp only [check_tp_liquidation, hl]
        split_ifs
        · intro e he
          exact ih e (List.mem_of_mem_filter he)
        · intro e he
          exact ih e (List.mem_of_mem_filter he)
        · exact ih
  · intro acc s q p pos hpos hge
    simp only [average_short, hpos]
    rw [if_pos hge]
  · intro acc h
    induction h with
    | init => simp [initialAccount]
    | step_open acc' s' q' p' hq' _ ih =>
      by_cases hs : (lookupPos acc'.positions s').isSome
      · simpa [open_short, hs] using ih
      · simp only [open_short, hs, Bool.false_eq_true, if_false]
        intro e he
        rcases List.mem_append.mp he with h1 | h1
        · exact ih e h1
        · have : e.2.total_qty = q' := by
            have := List.mem_singleton.mp h1
            rw [this]
          rw [this]
          exact hq'
    | step_avg acc' s' q' p' hq' _ ih =>
      cases hl : lookupPos acc'.positions s' with
      | none => simpa [average_short, hl] using ih
      | some pos =>
        by_cases hlev : cfg.avg_levels ≤ pos.level
        · simpa [average_short, hl, hlev] using ih
        · simp only [average_short, hl, hlev, if_false]
          intro e he
          rcases mem_updatePos _ _ _ _ he with h1 | h1
          · exact ih e h1
          · rw [h1]
            exact add_pos (ih _ (lookupPos_mem _ _ _ hl)) hq'
    | step_check acc' s' p' _ ih =>
      cases hl : lookupPos acc'.positions s' with
      | none => simpa [check_tp_liquidation, hl] using ih
      | some pos =>
        simp only [check_tp_liquidation, hl]
        split_ifs
        · intro e he
          exact ih e (List.mem_of_mem_filter he)
        · intro e he
          exact ih e (List.mem_of_mem_filter he)
        · exact ih

/-- C5 witness: the invariant instantiated at the shipped configuration on the
concrete position created by one entry of quantity 5 at price 100. -/
theorem C5_witness :
    1 ≤ ({ entry_price := 100, avg_price := 100, total_qty := 5, level := 1 } :
        Position).level ∧
    ({ entry_price := 100, avg_price := 100, total_qty := 5, level := 1 } :
        Position).level ≤ defaultConfig.avg_levels :=
  (C5_level_and_qty_invariants defaultConfig (by norm_num [defaultConfig])).1
    _ (Reachable.step_open initialAccount 0 5 100 Reachable.init)
    (0, { entry_price := 100, avg_price := 100, total_qty := 5, level := 1 })
    (by simp [open_short, initialAccount])

@[simp] theorem lookupLive_nil (s : Symbol) : lookupLive [] s = none := rfl

@[simp] theorem lookupLive_cons (k : Symbol) (v : LiveState) (t : LiveMap)
    (s : Symbol) :
    lookupLive ((k, v) :: t) s = if k = s then some v else lookupLive t s := by
  by_cases h : k = s <;> simp [lookupLive, List.find?_cons, h]

/-- Market snapshot used for the C1 scenario: every window pumps, open
interest passes the filter, leverage is acknowledged, prices are 100 (symbol 0)
and 110 (others), quantity precision 2, and the exchange rejects every order
(`open_short_market` returns None). -/
def mdC1 : MarketData :=
  { klines := fun _ _ => [100, 105, 108]
    price := fun s => if s = 0 then 100 else 110
    oi_growth := fun _ => 1/20
    qty_precision := fun _ => 2
    set_leverage_ok := fun _ => true
    exchange_order := fun _ => none }

theorem roundTo_half_two : roundTo (1/2) 2 = 1/2 := by
  rw [roundTo_eq _ _ 50 (pyRound_low _ _ (by norm_num) (by norm_num))]
  norm_num

theorem roundTo_five_two : roundTo (5 : ℚ) 2 = 5 := by
  rw [roundTo_eq _ _ 500 (pyRound_low _ _ (by norm_num) (by norm_num))]
  norm_num

theorem pumpSignal_mdC1 (s : Symbol) : pumpSignal defaultConfig mdC1 s = some 0 := by
  rw [pumpSignal]
  show firstPump ([1, 3, 5, 15].map fun _ => [100, 105, 108])
    defaultConfig.pump_percent = some 0
  rw [List.map_cons, firstPump, if_pos]
  rw [tfQualifies]
  norm_num [List.getD, defaultConfig]

/-- C1: in live mode the state is advanced even when order submission fails.
With the exchange rejecting every order (`open_short_market` evaluates to
None), the entry scan still creates the per-symbol averaging state, and the
averaging pass still advances level, entry/average price and quantity; indeed
the committed state is independent of the order result, because `main.py`
never inspects the value `open_short_market` returns. -/
theorem C1_state_advances_despite_rejected_order :
    liveEntryPass defaultConfig mdC1 1000 [] [] 0 =
      [(0, { entry_price := 100, total_qty := 1/2, level := 1 })] ∧
    open_short_market (mdC1.qty_precision 0) (mdC1.exchange_order 0)
      (roundTo (1000 * defaultConfig.position_size / mdC1.price 0)
        (mdC1.qty_precision 0)) = none ∧
    (∀ r : Option ℕ, liveEntryCommit r [] 0 100 (1/2) =
      liveEntryCommit none [] 0 100 (1/2)) ∧
    liveAvgPass defaultConfig mdC1 11000
      [(1, { entry_price := 100, total_qty := 5, level := 1 })]
      { symbol := 1, positionAmt := -5, entryPrice := 100 } =
      [(1, { entry_price := 105, total_qty := 10, level := 2 })] ∧
    (∀ r : Option ℕ,
      liveAvgCommit r [(1, { entry_price := 100, total_qty := 5, level := 1 })]
        1 { entry_price := 100, total_qty := 5, level := 1 } 110 5 =
      liveAvgCommit none [(1, { entry_price := 100, total_qty := 5, level := 1 })]
        1 { entry_price := 100, total_qty := 5, level := 1 } 110 5) := by
  have hps : defaultConfig.position_size = 1/20 := rfl
  have hmin : defaultConfig.min_oi_growth = 1/20 := rfl
  have havl : defaultConfig.avg_levels = 2 := rfl
  have hadp : defaultConfig.avg_drop_percent = 5 := rfl
  have hmul : defaultConfig.avg_multiplier = 1 := rfl
  have hoi : ∀ s, mdC1.oi_growth s = 1/20 := fun _ => rfl
  have hlev : ∀ s, mdC1.set_leverage_ok s = true := fun _ => rfl
  have hex : ∀ s, mdC1.exchange_order s = none := fun _ => rfl
  have hprec : ∀ s, mdC1.qty_precision s = 2 := fun _ => rfl
  have hprice0 : mdC1.price 0 = 100 := rfl
  have hprice1 : mdC1.price 1 = 110 := rfl
  refine ⟨?_, ?_, fun r => rfl, ?_, fun r => rfl⟩
  · norm_num [liveEntryPass, pumpSignal_mdC1, hps, hmin, hoi, hlev, hex,
      hprec, hprice0, roundTo_half_two, open_short_market, liveEntryCommit,
      setLive, List.find?]
  · norm_num [hps, hoi, hex, hprec, hprice0, roundTo_half_two,
      open_short_market]
  · norm_num [liveAvgPass, hps, havl, hadp, hmul, hoi, hex, hprec, hprice1,
      roundTo_five_two, open_short_market, liveAvgCommit, setLive,
      List.find?, LiveState.mk.injEq]

/-- Market snapshot for the C6 scenario: every window pumps, the open-interest
filter passes, price is 100, quantity precision is 0 and the exchange would
accept an order (id 7) — but the sized quantity rounds to 0. -/
def mdC6 : MarketData :=
  { klines := fun _ _ => [100, 105, 108]
    price := fun _ => 100
    oi_growth := fun _ => 1/20
    qty_precision := fun _ => 0
    set_leverage_ok := fun _ => true
    exchange_order := fun _ => some 7 }

theorem pumpSignal_mdC6 (s : Symbol) :
    pumpSignal defaultConfig mdC6 s = some 0 := by
  rw [pumpSignal]
  show firstPump ([1, 3, 5, 15].map fun _ => [100, 105, 108])
    defaultConfig.pump_percent = some 0
  rw [List.map_cons, firstPump, if_pos]
  rw [tfQualifies]
  norm_num [List.getD, defaultConfig]

theorem roundTo_small_zero : roundTo (1/200) 0 = 0 := by
  rw [roundTo_eq _ _ 0 (pyRound_low _ _ (by norm_num) (by norm_num))]
  norm_num

theorem roundTo_zero_zero : roundTo (0 : ℚ) 0 = 0 := by
  rw [roundTo_eq _ _ 0 (pyRound_low _ _ (by norm_num) (by norm_num))]
  norm_num

/-- C6: an entry whose sized quantity rounds to 0 (balance 10, price 100,
quantity precision 0: round(10·0.05/100, 0) = 0) is NOT a no-op. The paper
account records a position with total_qty = 0 (though the balance is indeed
unchanged), and in live mode `open_short_market` refuses the order (returns
None, even with the exchange willing to fill it) yet the per-symbol averaging
state is still recorded. -/
theorem C6_zero_qty_entry_not_noop :
    entryStepSymbol defaultConfig mdC6 initialAccount 0 =
      { balance := 10
        positions :=
          [(0, { entry_price := 100, avg_price := 100, total_qty := 0, level := 1 })]
        log := [LogEvent.entry 0 0 100] } ∧
    open_short_market (mdC6.qty_precision 0) (mdC6.exchange_order 0) 0 = none ∧
    liveEntryPass defaultConfig mdC6 10 [] [] 0 =
      [(0, { entry_price := 100, total_qty := 0, level := 1 })] := by
  have hps : defaultConfig.position_size = 1/20 := rfl
  have hmin : defaultConfig.min_oi_growth = 1/20 := rfl
  have hoi : ∀ s, mdC6.oi_growth s = 1/20 := fun _ => rfl
  have hlev : ∀ s, mdC6.set_leverage_ok s = true := fun _ => rfl
  have hex : ∀ s, mdC6.exchange_order s = some 7 := fun _ => rfl
  have hprec : ∀ s, mdC6.qty_precision s = 0 := fun _ => rfl
  have hprice : ∀ s, mdC6.price s = 100 := fun _ => rfl
  refine ⟨?_, ?_, ?_⟩
  · norm_num [entryStepSymbol, pumpSignal_mdC6, hps, hmin, hoi, hprec, hprice,
      roundTo_small_zero, open_short, initialAccount, INITIAL_BALANCE,
      PaperAccount.mk.injEq, Position.mk.injEq]
  · norm_num [hprec, hex, open_short_market, roundTo_zero_zero]
  · norm_num [liveEntryPass, pumpSignal_mdC6, hps, hmin, hoi, hlev, hex,
      hprec, hprice, roundTo_small_zero, open_short_market, roundTo_zero_zero,
      liveEntryCommit, setLive, List.find?, LiveState.mk.injEq]

/-- Position used in the C8 scenario: one open short, average 100, qty 10. -/
def posC8 : Position :=
  { entry_price := 100, avg_price := 100, total_qty := 10, level := 1 }

/-- Account for the C8 scenario. -/
def accC8 : PaperAccount :=
  { balance := 10, positions := [(0, posC8)], log := [] }

/-- Market snapshot for the C8 scenario: symbol 0 trades at 90 (its TP fires),
symbol 1 pumps and trades at 100; quantity precision 4. -/
def mdC8 : MarketData :=
  { klines := fun _ _ => [100, 105, 108]
    price := fun s => if s = 0 then 90 else 100
    oi_growth := fun _ => 1/20
    qty_precision := fun _ => 4
    set_leverage_ok := fun _ => true
    exchange_order := fun _ => some 7 }

/-- Three exchange-reported shorts, saturating MAX_OPEN_TRADES = 3. -/
def opsC8 : List ExchangePos :=
  [{ symbol := 0, positionAmt := -1, entryPrice := 100 },
   { symbol := 1, positionAmt := -1, entryPrice := 100 },
   { symbol := 2, positionAmt := -1, entryPrice := 100 }]

theorem lookupLive_find?_none (st : LiveMap) (s : Symbol)
    (h : lookupLive st s = none) :
    st.find? (fun e => e.1 == s) = none := by
  unfold lookupLive at h
  cases hf : st.find? (fun e => e.1 == s) with
  | none => rfl
  | some e => rw [hf] at h; exact absurd h (by simp)

theorem setLive_not_mem (st : LiveMap) (s : Symbol) (v : LiveState)
    (h : lookupLive st s = none) : setLive st s v = st ++ [(s, v)] := by
  rw [setLive, lookupLive_find?_none st s h]
  simp

theorem pumpSignal_mdC8 (s : Symbol) :
    pumpSignal defaultConfig mdC8 s = some 0 := by
  rw [pumpSignal]
  show firstPump ([1, 3, 5, 15].map fun _ => [100, 105, 108])
    defaultConfig.pump_percent = some 0
  rw [List.map_cons, firstPump, if_pos]
  rw [tfQualifies]
  norm_num [List.getD, defaultConfig]

theorem roundTo_1_200_4 : roundTo (1/200) 4 = 1/200 := by
  rw [roundTo_eq _ _ 50 (pyRound_low _ _ (by norm_num) (by norm_num))]
  norm_num

theorem roundTo_11_200_4 : roundTo (11/200) 4 = 11/200 := by
  rw [roundTo_eq _ _ 550 (pyRound_low _ _ (by norm_num) (by norm_num))]
  norm_num

/-- C8 counterexample: (i) the paper tick runs the new-entry scan BEFORE the
averaging/TP/liquidation pass, observably: with a TP close pending on symbol 0
and a pump signal on symbol 1, the tick sizes the new entry from the
pre-close balance (qty 1/200), whereas the claimed order (monitoring first)
would size it from the credited balance (qty 11/200); (ii) the live tick at
MAX_OPEN_TRADES open positions skips the whole tick — the state stays [] even
though the averaging/recovery pass alone would have changed it. -/
theorem C8_counterexample :
    paperTick defaultConfig mdC8 [1] accC8 ≠
      specTickPaper defaultConfig mdC8 [1] accC8 ∧
    liveTick defaultConfig mdC8 [] 10 opsC8 [] = [] ∧
    opsC8.foldl (liveAvgPass defaultConfig mdC8 10) [] ≠ [] := by
  have hps : defaultConfig.position_size = 1/20 := rfl
  have hmin : defaultConfig.min_oi_growth = 1/20 := rfl
  have havl : defaultConfig.avg_levels = 2 := rfl
  have hadp : defaultConfig.avg_drop_percent = 5 := rfl
  have hmul : defaultConfig.avg_multiplier = 1 := rfl
  have htp : defaultConfig.tp_percent = 3 := rfl
  have hlev10 : defaultConfig.leverage = 10 := rfl
  have husea : defaultConfig.use_averaging = true := rfl
  have hmax : defaultConfig.max_open_trades = 3 := rfl
  have hoi : ∀ s, mdC8.oi_growth s = 1/20 := fun _ => rfl
  have hprec : ∀ s, mdC8.qty_precision s = 4 := fun _ => rfl
  have hprice0 : mdC8.price 0 = 90 := rfl
  have hprice1 : mdC8.price 1 = 100 := rfl
  have h1 : paperTick defaultConfig mdC8 [1] accC8 =
      { balance := 110
        positions :=
          [(1, { entry_price := 100, avg_price := 100, total_qty := 1/200, level := 1 })]
        log := [LogEvent.entry 1 (1/200) 100, LogEvent.tpClose 0 90 100 110] } := by
    norm_num [paperTick, entryPhase, monitorPhase, entryStepSymbol,
      monitorSymbol, open_short, average_short, check_tp_liquidation,
      accC8, posC8, pumpSignal_mdC8, hps, hmin, havl, hadp, hmul, htp,
      hlev10, husea, hmax, hoi, hprec, hprice0, hprice1, roundTo_1_200_4,
      PaperAccount.mk.injEq, Position.mk.injEq]
  have h2 : specTickPaper defaultConfig mdC8 [1] accC8 =
      { balance := 110
        positions :=
          [(1, { entry_price := 100, avg_price := 100, total_qty := 11/200, level := 1 })]
        log := [LogEvent.tpClose 0 90 100 110, LogEvent.entry 1 (11/200) 100] } := by
    norm_num [specTickPaper, entryPhase, monitorPhase, entryStepSymbol,
      monitorSymbol, open_short, average_short, check_tp_liquidation,
      accC8, posC8, pumpSignal_mdC8, hps, hmin, havl, hadp, hmul, htp,
      hlev10, husea, hmax, hoi, hprec, hprice0, hprice1, roundTo_11_200_4,
      PaperAccount.mk.injEq, Position.mk.injEq]
  refine ⟨?_, ?_, ?_⟩
  · rw [h1, h2]
    intro h
    rw [PaperAccount.mk.injEq] at h
    norm_num [Position.mk.injEq] at h
  · rw [liveTick, if_pos]
    norm_num [opsC8, hmax]
  · have s1 : liveAvgPass defaultConfig mdC8 10 []
        { symbol := 0, positionAmt := -1, entryPrice := 100 } =
        [(0, { entry_price := 100, total_qty := 1, level := 1 })] := by
      norm_num [liveAvgPass, setLive_not_mem, LiveState.mk.injEq]
    have s2 : liveAvgPass defaultConfig mdC8 10
        [(0, { entry_price := 100, total_qty := 1, level := 1 })]
        { symbol := 1, positionAmt := -1, entryPrice := 100 } =
        [(0, { entry_price := 100, total_qty := 1, level := 1 }),
         (1, { entry_price := 100, total_qty := 1, level := 1 })] := by
      norm_num [liveAvgPass, setLive_not_mem, LiveState.mk.injEq]
    have s3 : liveAvgPass defaultConfig mdC8 10
        [(0, { entry_price := 100, total_qty := 1, level := 1 }),
         (1, { entry_price := 100, total_qty := 1, level := 1 })]
        { symbol := 2, positionAmt := -1, entryPrice := 100 } =
        [(0, { entry_price := 100, total_qty := 1, level := 1 }),
         (1, { entry_price := 100, total_qty := 1, level := 1 }),
         (2, { entry_price := 100, total_qty := 1, level := 1 })] := by
      norm_num [liveAvgPass, setLive_not_mem, LiveState.mk.injEq]
    rw [opsC8]
    rw [List.foldl_cons, s1, List.foldl_cons, s2, List.foldl_cons, s3,
      List.foldl_nil]
    simp

/-- C8 (amended): the paper tick is the new-entry scan (gated by the
max-open-trades check, which skips only the scan) followed by the
averaging-then-TP/liquidation pass over every open position — scan FIRST,
monitoring second; the live tick, when the open-position count has reached
max_open_trades, skips everything, averaging and exit evaluation included. -/
theorem C8_tick_order_amended (cfg : Config) (md : MarketData)
    (symbols : List Symbol) (acc : PaperAccount) (balance : ℚ)
    (open_pos : List ExchangePos) (st : LiveMap) :
    paperTick cfg md symbols acc =
      monitorPhase cfg md (entryPhase cfg md symbols acc) ∧
    (cfg.max_open_trades ≤ acc.positions.length →
      paperTick cfg md symbols acc = monitorPhase cfg md acc) ∧
    (cfg.max_open_trades ≤ open_pos.length →
      liveTick cfg md symbols balance open_pos st = st) := by
  refine ⟨rfl, ?_, ?_⟩
  · intro h
    rw [paperTick, entryPhase, if_pos h]
  · intro h
    rw [liveTick, if_pos h]

/-- C8 witness: at three open exchange positions (max_open_trades of the
shipped configuration) the live tick leaves the averaging state untouched. -/
theorem C8_witness :
    liveTick defaultConfig mdC8 [] 10 opsC8
      [(5, { entry_price := 100, total_qty := 1, level := 1 })] =
      [(5, { entry_price := 100, total_qty := 1, level := 1 })] :=
  (C8_tick_order_amended defaultConfig mdC8 [] accC8 10 opsC8
    [(5, { entry_price := 100, total_qty := 1, level := 1 })]).2.2
    (by norm_num [defaultConfig, opsC8])

end PumpBot
